import Mathlib

/-!
# Verification of the tool-fallbacks resilience layer

Shallow embedding of `patterns/tool-fallbacks/examples/py/main.py`:
the circuit-breaker state machine (`CircuitBreaker`), the rolling-window
statistics (`p95`, `failRate`), the supplier fallback chain
(`SupplierClient.get_price`, embedded as `getPrice`) and the allergen
union-fallback chain (`AllergenClient.allergens_for`, embedded as
`allergensFor`).

Modelling conventions:
* machine floats (durations in ms, failure rates, timestamps) are exact
  rationals `ℚ`;
* the clock is passed explicitly: every operation that reads
  `now_ms_monotonic()` / `now_ms_wall()` in the source takes the current
  time as an argument;
* the asynchronous mock integrations (`fetch_supplier_price`,
  `fetch_allergens`) are oracle parameters giving each call's outcome;
  `none` / `.err` means the awaited call raised (any exception, including
  the `TimeoutError` re-raised by `with_timeout`);
* telemetry (`emit`) is pure logging with no influence on control flow and
  is not modelled.

All embedded functions are total Lean functions, so the orchestrators
(`getPrice`, `allergensFor`) return a result on every input by
construction — no exception can propagate out of them.
-/

namespace ToolFallbacks

/-- `p95` (main.py 74-79): nonempty list → element at index
`min(len-1, int(0.95*(len-1)))` of the ascending sort; empty list → 0.
(`sorted` and `List.insertionSort (· ≤ ·)` agree: on a linear order the
ascending reordering of a list is unique.) -/
def p95 (values : List ℚ) : ℚ :=
  if values.isEmpty then 0
  else
    let sortedVals := List.insertionSort (· ≤ ·) values
    let idx := min (sortedVals.length - 1)
      (Int.floor ((95 : ℚ) / 100 * ((sortedVals.length - 1 : ℕ) : ℚ))).toNat
    sortedVals.getD idx 0

/-- Breaker state: `'closed' | 'open' | 'probe'` (`open` is a Lean keyword,
so the open state is named `opened`). -/
inductive BState
  | closed
  | opened
  | probe
deriving DecidableEq

/-- `CircuitBreaker` fields (main.py 129-144). -/
structure CircuitBreaker where
  state : BState
  lastOpenedAtMs : ℚ
  outcomes : List (ℚ × Bool)
  sampleSize : ℕ
  maxFailRate : ℚ
  cooldownMs : ℚ
  maxP95Ms : ℚ
deriving DecidableEq

/-- `CircuitBreaker.__init__`: starts closed with an empty window and
`_last_opened_at_ms = 0`. -/
def CircuitBreaker.init (sampleSize : ℕ) (maxFailRate cooldownMs maxP95Ms : ℚ) :
    CircuitBreaker :=
  ⟨.closed, 0, [], sampleSize, maxFailRate, cooldownMs, maxP95Ms⟩

/-- `CircuitBreaker.can_probe` (main.py 149-154). -/
def canProbe (b : CircuitBreaker) (now : ℚ) : Bool :=
  b.state == .opened && decide (now - b.lastOpenedAtMs ≥ b.cooldownMs)

/-- `CircuitBreaker.enter_probe` (main.py 156-159). -/
def enterProbe (b : CircuitBreaker) (now : ℚ) : CircuitBreaker :=
  if canProbe b now then { b with state := .probe } else b

/-- `CircuitBreaker._push_outcome` (main.py 173-176): append, evict the
oldest sample when the window exceeds its capacity. -/
def pushOutcome (b : CircuitBreaker) (ms : ℚ) (ok : Bool) : CircuitBreaker :=
  let pushed := b.outcomes ++ [(ms, ok)]
  { b with outcomes := if b.sampleSize < pushed.length then pushed.drop 1 else pushed }

/-- Number of failed samples in a window (`fails` in `_evaluate`). -/
def failCount (outcomes : List (ℚ × Bool)) : ℕ :=
  (outcomes.filter (fun o => !o.2)).length

/-- `fail_rate` in `_evaluate` (main.py 180): `fails/len`, `0` if empty. -/
def failRate (outcomes : List (ℚ × Bool)) : ℚ :=
  if outcomes.isEmpty then 0 else (failCount outcomes : ℚ) / (outcomes.length : ℚ)

/-- Durations of a window, in insertion order. -/
def durations (outcomes : List (ℚ × Bool)) : List ℚ :=
  outcomes.map Prod.fst

/-- The trip condition of `_evaluate` (main.py 191):
`fail_rate >= max_fail_rate or p95_ms >= max_p95_ms`. -/
def tripped (b : CircuitBreaker) : Prop :=
  failRate b.outcomes ≥ b.maxFailRate ∨ p95 (durations b.outcomes) ≥ b.maxP95Ms

instance (b : CircuitBreaker) : Decidable (tripped b) := by
  unfold tripped; exact inferInstance

/-- `CircuitBreaker._evaluate` (main.py 178-194): when not already open and
the trip condition holds, transition to open and stamp `openedAt = now`. -/
def evaluate (b : CircuitBreaker) (now : ℚ) : CircuitBreaker :=
  if b.state ≠ .opened ∧ tripped b then { b with state := .opened, lastOpenedAtMs := now }
  else b

/-- `CircuitBreaker.success` (main.py 161-167): push the sample; while
probing a success closes the breaker; then `_evaluate` runs (it is *not*
skipped after the probe shortcut). -/
def success (b : CircuitBreaker) (ms now : ℚ) : CircuitBreaker :=
  let b1 := pushOutcome b ms true
  let b2 := if b1.state = .probe then { b1 with state := .closed } else b1
  evaluate b2 now

/-- `CircuitBreaker.failure` (main.py 169-171). -/
def failure (b : CircuitBreaker) (ms now : ℚ) : CircuitBreaker :=
  evaluate (pushOutcome b ms false) now

/-- One reported outcome `(duration, ok)` fed through `success`/`failure`. -/
def feedStep (now : ℚ) (b : CircuitBreaker) (o : ℚ × Bool) : CircuitBreaker :=
  if o.2 then success b o.1 now else failure b o.1 now

/-- Feeding a sequence of outcomes to a breaker, oldest first. -/
def feed (b : CircuitBreaker) (l : List (ℚ × Bool)) (now : ℚ) : CircuitBreaker :=
  l.foldl (feedStep now) b

/-! ## Supplier pricing chain -/

/-- `Region = Literal["us-east", "us-west"]`. -/
inductive Region
  | usEast
  | usWest
deriving DecidableEq

/-- The literal region string used in tags and breaker lookups. -/
def Region.str : Region → String
  | .usEast => "us-east"
  | .usWest => "us-west"

/-- `mirror = "us-west" if preferred == "us-east" else "us-east"`
(main.py 319). -/
def mirrorOf (preferred : Region) : Region :=
  if preferred = .usEast then .usWest else .usEast

/-- `PriceResult` dataclass (main.py 44-49). -/
structure PriceResult where
  cents : ℤ
  is_degraded : Bool
  reasons : List String
  freshness : Option String
deriving DecidableEq

/-- `freshness_label` (main.py 287-291): Python's `int(age // 3600000)` and
`int((age % 3600000) // 60000)` are floors for a positive divisor. -/
def freshnessLabel (nowWall tsMs : ℚ) : String :=
  let ageMs := nowWall - tsMs
  let hours := Int.floor (ageMs / (1000 * 60 * 60))
  let mins := Int.floor ((ageMs - 1000 * 60 * 60 * ((Int.floor (ageMs / (1000 * 60 * 60)) : ℤ) : ℚ)) / (1000 * 60))
  if hours > 0 then s!"{hours}h {mins}m old" else s!"{mins}m old"

/-- `pat` starts the list `l` (Python prefix test used by `listHasSub`). -/
def listStartsWith : List Char → List Char → Bool
  | [], _ => true
  | _ :: _, [] => false
  | p :: ps, c :: cs => p == c && listStartsWith ps cs

/-- Contiguous-sublist test on char lists (Python's `pat in s`). -/
def listHasSub (pat : List Char) : List Char → Bool
  | [] => pat.isEmpty
  | c :: cs => listStartsWith pat (c :: cs) || listHasSub pat cs

/-- Python's substring test `pat in s`. -/
def strContainsSub (s pat : String) : Bool :=
  listHasSub pat.data s.data

/-- `baseline_estimate_cents` (main.py 276-284). -/
def baselineEstimateCents (sku : String) : ℤ :=
  if strContainsSub sku "STEAK" then 399
  else if strContainsSub sku "FISH" then 349
  else if strContainsSub sku "PASTA" then 149
  else 250

/-- The mutable context one `get_price` call runs in: per-region breakers,
the `price_cache` entry for the requested SKU, the shared `reasons` list,
and (instrumentation) the regions whose fetch was actually invoked. -/
structure SupplierSt where
  brks : Region → CircuitBreaker
  cache : Option (ℤ × ℚ)
  reasons : List String
  calls : List Region

/-- Point update of the per-region breaker map. -/
def updBrk (brks : Region → CircuitBreaker) (r : Region) (b : CircuitBreaker) :
    Region → CircuitBreaker :=
  fun r' => if r' = r then b else brks r'

/-- The inner `attempt(region)` closure of `SupplierClient.get_price`
(main.py 323-360). `fetch r = some (cents, duration)` models a successful
`with_timeout(self._try_region(sku, region), 900, ...)`;
`fetch r = none` models that awaited call raising (upstream error or the
`TimeoutError` raised by `with_timeout`) — the `except` arm then reports
`failure(900.0)` and appends `supplier_error_<region>`. -/
def attempt (fetch : Region → Option (ℤ × ℚ)) (nowMono nowWall : ℚ) (r : Region)
    (st : SupplierSt) : Option PriceResult × SupplierSt :=
  let brk := st.brks r
  if brk.state = .opened ∧ canProbe brk nowMono = false then
    (none, { st with reasons := st.reasons ++ ["supplier_open"] })
  else
    let brk1 := enterProbe brk nowMono
    match fetch r with
    | some (cents, duration) =>
      let brk2 := success brk1 duration nowMono
      let st1 : SupplierSt :=
        { st with brks := updBrk st.brks r brk2, cache := some (cents, nowWall),
                  calls := st.calls ++ [r] }
      (some ⟨cents, decide (0 < st.reasons.length), st.reasons, none⟩, st1)
    | none =>
      let brk2 := failure brk1 900 nowMono
      let st1 : SupplierSt :=
        { st with brks := updBrk st.brks r brk2,
                  reasons := st.reasons ++ ["supplier_error_" ++ r.str],
                  calls := st.calls ++ [r] }
      (none, st1)

/-- `SupplierClient.get_price` (main.py 317-386): primary region → mirror
region → cache → baseline estimate.  `cache0` is the `price_cache` entry
for `sku` when the call starts (`none` = cache miss). -/
def getPrice (fetch : Region → Option (ℤ × ℚ)) (nowMono nowWall : ℚ) (sku : String)
    (preferred : Region) (brks0 : Region → CircuitBreaker) (cache0 : Option (ℤ × ℚ)) :
    PriceResult × SupplierSt :=
  let primary := preferred
  let mirror := mirrorOf preferred
  let st0 : SupplierSt := ⟨brks0, cache0, [], []⟩
  match attempt fetch nowMono nowWall primary st0 with
  | (some p1, st1) => (p1, st1)
  | (none, st1) =>
    match attempt fetch nowMono nowWall mirror st1 with
    | (some p2, st2) =>
      let reasons := p2.reasons ++ ["used_mirror"]
      ({ p2 with reasons := reasons, is_degraded := true }, { st2 with reasons := reasons })
    | (none, st2) =>
      match st2.cache with
      | some (cents, ts) =>
        let fr := freshnessLabel nowWall ts
        let reasons := st2.reasons ++ ["used_cache"]
        (⟨cents, true, reasons, some fr⟩, { st2 with reasons := reasons })
      | none =>
        let cents := baselineEstimateCents sku
        let reasons := st2.reasons ++ ["used_baseline"]
        (⟨cents, true, reasons, none⟩, { st2 with reasons := reasons })

/-- `with_timeout` (main.py 99-105), at its boundary with the caller.
`outcome` is what awaiting the wrapped call produces (`.ok` value or
`.error` exception message), `timedOut` says whether the deadline fired
first.  The function *raises* on every failure path: a deadline miss is
re-raised as `TimeoutError("timeout_<label>")`, and any other exception is
re-raised unchanged (`except Exception: raise`); an `Except.error` result
models an exception escaping `with_timeout` to its caller. -/
def withTimeout {T : Type} (outcome : Except String T) (timedOut : Bool)
    (label : String) : Except String T :=
  if timedOut then .error ("timeout_" ++ label) else outcome

/-! ## Allergen chain -/

/-- `AllergenResult` dataclass (main.py 52-56). -/
structure AllergenResult where
  items : List String
  is_degraded : Bool
  reasons : List String
deriving DecidableEq

/-- `Recipe` dataclass (main.py 59-64). -/
structure Recipe where
  id : String
  name : String
  ingredients : List String
  allergen_tags : List String

/-- `llm_complete` (main.py 259-263) always returns this string. -/
def llmComplete : String := "gluten, dairy, nuts, soy"

/-- Strip leading whitespace of a char list. -/
def dropWhileWs (l : List Char) : List Char :=
  l.dropWhile Char.isWhitespace

/-- Python `str.strip()`. -/
def stripStr (s : String) : String :=
  ⟨(dropWhileWs ((dropWhileWs s.data).reverse)).reverse⟩

/-- Python `str.lower()` (ASCII inputs here). -/
def lowerStr (s : String) : String :=
  ⟨s.data.map Char.toLower⟩

/-- Python `str.split(",")`. -/
def splitOnComma : List Char → List (List Char)
  | [] => [[]]
  | c :: cs =>
    if c = ',' then [] :: splitOnComma cs
    else
      match splitOnComma cs with
      | [] => [[c]]
      | g :: gs => (c :: g) :: gs

/-- `[s.strip().lower() for s in llm_raw.split(",") if s.strip()]`
(main.py 432). -/
def llmItems : List String :=
  (((splitOnComma llmComplete.data).map (fun g => stripStr ⟨g⟩)).filter
    (fun s => !s.isEmpty)).map lowerStr

/-- Python `sorted` on strings (code-point lexicographic). -/
def sortStrings (l : List String) : List String :=
  List.insertionSort (· ≤ ·) l

/-- Python `sorted(set(l))`. -/
def sortedDedup (l : List String) : List String :=
  sortStrings l.dedup

/-- Outcome of awaiting `with_timeout(fetch_allergens(...), 800, "allergen")`:
a value with its measured duration, or a raised exception message. -/
inductive AllergenOutcome
  | ok (items : List String) (duration : ℚ)
  | err (msg : String)

/-- The fallback tail of `allergens_for` (main.py 426-437): local tags and
the conservative LLM pass, merged as a deduplicated sorted union. -/
def allergenFallback (recipe : Recipe) (reasons0 : List String) (brk : CircuitBreaker) :
    AllergenResult × CircuitBreaker :=
  let localTags := sortedDedup (recipe.allergen_tags.map lowerStr)
  let reasons1 := reasons0 ++ ["allergen_fallback_local_tags"]
  let reasons2 := reasons1 ++ ["allergen_fallback_llm"]
  let items := sortedDedup (localTags ++ llmItems)
  (⟨items, true, reasons2⟩, brk)

/-- `AllergenClient.allergens_for` (main.py 401-437). -/
def allergensFor (recipe : Recipe) (outcome : AllergenOutcome) (now : ℚ)
    (brk : CircuitBreaker) : AllergenResult × CircuitBreaker :=
  if brk.state = .opened ∧ canProbe brk now = false then
    allergenFallback recipe ["allergen_open"] brk
  else
    let brk1 := enterProbe brk now
    match outcome with
    | .ok items duration => (⟨items, false, []⟩, success brk1 duration now)
    | .err msg =>
      let brk2 := failure brk1 800 now
      let tag :=
        if strContainsSub (lowerStr msg) "timeout" then "allergen_timeout"
        else "allergen_invalid_json"
      allergenFallback recipe [tag] brk2

/-! ## Definitions taken from the specification's words (for comparison) -/

/-- Modelled from the spec: the spec's `p95Latency` formula — "nearest-rank
percentile at index `ceil(0.95*len)-1` over durations sorted ascending,
0 if empty" — stated verbatim, to be compared with the source's `p95`. -/
def p95NearestRank (values : List ℚ) : ℚ :=
  if values.isEmpty then 0
  else
    let sortedVals := List.insertionSort (· ≤ ·) values
    sortedVals.getD (Nat.ceil ((95 : ℚ) / 100 * (values.length : ℚ)) - 1) 0

/-! ## Concrete sample values used by counterexamples and witnesses -/

/-- A supplier-shaped breaker (capacity 40, `max_fail_rate` 0.4, cooldown
15 000 ms, `max_p95` 1 200 ms) that tripped open at time 0 after two
failures. -/
def bOpen : CircuitBreaker :=
  ⟨.opened, 0, [((900 : ℚ), false), ((900 : ℚ), false)], 40, 2/5, 15000, 1200⟩

/-- A fresh supplier-shaped breaker. -/
def bClosedFresh : CircuitBreaker :=
  CircuitBreaker.init 40 (2/5) 15000 1200

/-- A probing breaker whose window still holds the nine failures that
tripped it. -/
def bProbeFail : CircuitBreaker :=
  ⟨.probe, 0, List.replicate 9 ((900 : ℚ), false), 40, 2/5, 15000, 1200⟩

/-- A probing breaker whose window holds nine fast successes (reachable
via `success`/`failure` calls made while the breaker sat open, which push
samples without transitioning). -/
def bProbeClean : CircuitBreaker :=
  ⟨.probe, 0, List.replicate 9 ((100 : ℚ), true), 40, 2/5, 15000, 1200⟩

/-- The C6 order with three failures up front: the very first failure makes
the one-sample window's rate `1/1 ≥ 0.4` and trips the breaker, which then
stays open. -/
def badOrderC6 : List (ℚ × Bool) :=
  List.replicate 3 ((100 : ℚ), false) ++ List.replicate 7 ((100 : ℚ), true)

/-- The C6 order `S,S,S,F,S,S,F,S,S,F`: every prefix keeps the failure rate
strictly below 0.4. -/
def goodOrderC6 : List (ℚ × Bool) :=
  [((100 : ℚ), true), ((100 : ℚ), true), ((100 : ℚ), true), ((100 : ℚ), false),
   ((100 : ℚ), true), ((100 : ℚ), true), ((100 : ℚ), false), ((100 : ℚ), true),
   ((100 : ℚ), true), ((100 : ℚ), false)]

/-- The post-state of one outcome reported to a breaker in closed state:
the breaker trips to open (stamping `openedAt = now`) exactly when the
post-push window's failure rate reaches `maxFailRate` or its p95 reaches
`maxP95Ms`. -/
def ClosedStepSpec (b : CircuitBreaker) (ms now : ℚ) : Prop :=
  ((success b ms now).state = .opened ↔ tripped (pushOutcome b ms true))
  ∧ ((success b ms now).state = .opened → (success b ms now).lastOpenedAtMs = now)
  ∧ ((failure b ms now).state = .opened ↔ tripped (pushOutcome b ms false))
  ∧ ((failure b ms now).state = .opened → (failure b ms now).lastOpenedAtMs = now)

/-- The per-region breaker map of the C5 scenario: `us-west` tripped open
at time 0, `us-east` fresh and closed. -/
def brksC5 : Region → CircuitBreaker
  | .usWest => bOpen
  | .usEast => bClosedFresh

/-- The 10 outcomes used to instantiate the universally quantified part of
C6: six successes then four failures, the last sample a failure. -/
def lastFailOrderC6 : List (ℚ × Bool) :=
  List.replicate 6 ((100 : ℚ), true) ++ List.replicate 4 ((100 : ℚ), false)

/-- The demo recipe of `main()` (main.py 451-456). -/
def recipeBolognese : Recipe :=
  ⟨"RCP_BOLOGNESE", "Bolognese",
    ["pasta", "tomato", "ground beef", "parmesan cheese", "butter"], ["dairy"]⟩

/-! ## Breaker lemmas -/

@[simp] lemma pushOutcome_state (b : CircuitBreaker) (ms : ℚ) (ok : Bool) :
    (pushOutcome b ms ok).state = b.state := rfl

@[simp] lemma pushOutcome_lastOpenedAtMs (b : CircuitBreaker) (ms : ℚ) (ok : Bool) :
    (pushOutcome b ms ok).lastOpenedAtMs = b.lastOpenedAtMs := rfl

@[simp] lemma pushOutcome_sampleSize (b : CircuitBreaker) (ms : ℚ) (ok : Bool) :
    (pushOutcome b ms ok).sampleSize = b.sampleSize := rfl

@[simp] lemma pushOutcome_maxFailRate (b : CircuitBreaker) (ms : ℚ) (ok : Bool) :
    (pushOutcome b ms ok).maxFailRate = b.maxFailRate := rfl

@[simp] lemma pushOutcome_cooldownMs (b : CircuitBreaker) (ms : ℚ) (ok : Bool) :
    (pushOutcome b ms ok).cooldownMs = b.cooldownMs := rfl

@[simp] lemma pushOutcome_maxP95Ms (b : CircuitBreaker) (ms : ℚ) (ok : Bool) :
    (pushOutcome b ms ok).maxP95Ms = b.maxP95Ms := rfl

lemma pushOutcome_outcomes_of_lt (b : CircuitBreaker) (ms : ℚ) (ok : Bool)
    (h : b.outcomes.length < b.sampleSize) :
    (pushOutcome b ms ok).outcomes = b.outcomes ++ [(ms, ok)] := by
  have h2 : ¬ (b.sampleSize < (b.outcomes ++ [(ms, ok)]).length) := by
    simp only [List.length_append, List.length_cons, List.length_nil]
    omega
  simp [pushOutcome, h2]
  exact fun hlt => absurd hlt (by omega)

lemma evaluate_of_opened {b : CircuitBreaker} (now : ℚ) (h : b.state = .opened) :
    evaluate b now = b := by
  unfold evaluate
  rw [if_neg]
  rintro ⟨h1, -⟩
  exact h1 h

lemma evaluate_of_tripped {b : CircuitBreaker} (now : ℚ) (h1 : b.state ≠ .opened)
    (h2 : tripped b) :
    evaluate b now = { b with state := .opened, lastOpenedAtMs := now } := by
  unfold evaluate
  rw [if_pos ⟨h1, h2⟩]

lemma evaluate_of_not_tripped {b : CircuitBreaker} (now : ℚ) (h : ¬ tripped b) :
    evaluate b now = b := by
  unfold evaluate
  rw [if_neg]
  rintro ⟨-, h2⟩
  exact h h2

/-- `tripped` depends only on the window and the thresholds, not on the
state field. -/
lemma tripped_set_state (b : CircuitBreaker) (s : BState) :
    tripped { b with state := s } ↔ tripped b := Iff.rfl

lemma success_of_not_probe {b : CircuitBreaker} (ms now : ℚ) (h : b.state ≠ .probe) :
    success b ms now = evaluate (pushOutcome b ms true) now := by
  have h2 : ¬ ((pushOutcome b ms true).state = BState.probe) := by
    simpa using h
  simp [success, h2]
  rw [if_neg h]

lemma success_of_probe {b : CircuitBreaker} (ms now : ℚ) (h : b.state = .probe) :
    success b ms now = evaluate { pushOutcome b ms true with state := .closed } now := by
  have h2 : (pushOutcome b ms true).state = BState.probe := by
    simpa using h
  simp [success, h2]
  rw [if_pos h]

lemma failure_eq_evaluate (b : CircuitBreaker) (ms now : ℚ) :
    failure b ms now = evaluate (pushOutcome b ms false) now := rfl

lemma success_of_opened {b : CircuitBreaker} (ms now : ℚ) (h : b.state = .opened) :
    success b ms now = pushOutcome b ms true := by
  rw [success_of_not_probe ms now (by rw [h]; intro hc; cases hc),
    evaluate_of_opened now (by simpa using h)]

lemma failure_of_opened {b : CircuitBreaker} (ms now : ℚ) (h : b.state = .opened) :
    failure b ms now = pushOutcome b ms false := by
  rw [failure_eq_evaluate, evaluate_of_opened now (by simpa using h)]

lemma feedStep_of_opened {b : CircuitBreaker} (now : ℚ) (o : ℚ × Bool)
    (h : b.state = .opened) :
    feedStep now b o = pushOutcome b o.1 o.2 := by
  unfold feedStep
  rcases o with ⟨ms, ok⟩
  cases ok
  · simpa using failure_of_opened ms now h
  · simpa using success_of_opened ms now h

lemma feed_state_of_opened {b : CircuitBreaker} (l : List (ℚ × Bool)) (now : ℚ)
    (h : b.state = .opened) :
    (feed b l now).state = .opened := by
  induction l generalizing b with
  | nil => exact h
  | cons o rest ih =>
    show (feed (feedStep now b o) rest now).state = .opened
    exact ih (by rw [feedStep_of_opened now o h, pushOutcome_state]; exact h)

lemma feedStep_of_closed {b : CircuitBreaker} (now : ℚ) (o : ℚ × Bool)
    (h : b.state = .closed) :
    feedStep now b o =
      if tripped (pushOutcome b o.1 o.2)
      then { pushOutcome b o.1 o.2 with state := .opened, lastOpenedAtMs := now }
      else pushOutcome b o.1 o.2 := by
  have hstep : feedStep now b o = evaluate (pushOutcome b o.1 o.2) now := by
    unfold feedStep
    rcases o with ⟨ms, ok⟩
    cases ok
    · simpa using failure_eq_evaluate b ms now
    · simpa using success_of_not_probe ms now (by rw [h]; intro hc; cases hc)
  rw [hstep]
  by_cases ht : tripped (pushOutcome b o.1 o.2)
  · rw [if_pos ht, evaluate_of_tripped now (by rw [pushOutcome_state, h]; intro hc; cases hc) ht]
  · rw [if_neg ht, evaluate_of_not_tripped now ht]

lemma feed_append (b : CircuitBreaker) (l : List (ℚ × Bool)) (o : ℚ × Bool) (now : ℚ) :
    feed b (l ++ [o]) now = feedStep now (feed b l now) o := by
  unfold feed
  rw [List.foldl_append]
  rfl

lemma evaluate_sampleSize (b : CircuitBreaker) (now : ℚ) :
    (evaluate b now).sampleSize = b.sampleSize := by
  unfold evaluate; split <;> rfl

lemma evaluate_maxFailRate (b : CircuitBreaker) (now : ℚ) :
    (evaluate b now).maxFailRate = b.maxFailRate := by
  unfold evaluate; split <;> rfl

lemma evaluate_maxP95Ms (b : CircuitBreaker) (now : ℚ) :
    (evaluate b now).maxP95Ms = b.maxP95Ms := by
  unfold evaluate; split <;> rfl

lemma success_sampleSize (b : CircuitBreaker) (ms now : ℚ) :
    (success b ms now).sampleSize = b.sampleSize := by
  by_cases h : b.state = .probe
  · rw [success_of_probe ms now h, evaluate_sampleSize]; rfl
  · rw [success_of_not_probe ms now h, evaluate_sampleSize]; rfl

lemma success_maxFailRate (b : CircuitBreaker) (ms now : ℚ) :
    (success b ms now).maxFailRate = b.maxFailRate := by
  by_cases h : b.state = .probe
  · rw [success_of_probe ms now h, evaluate_maxFailRate]; rfl
  · rw [success_of_not_probe ms now h, evaluate_maxFailRate]; rfl

lemma success_maxP95Ms (b : CircuitBreaker) (ms now : ℚ) :
    (success b ms now).maxP95Ms = b.maxP95Ms := by
  by_cases h : b.state = .probe
  · rw [success_of_probe ms now h, evaluate_maxP95Ms]; rfl
  · rw [success_of_not_probe ms now h, evaluate_maxP95Ms]; rfl

lemma failure_sampleSize (b : CircuitBreaker) (ms now : ℚ) :
    (failure b ms now).sampleSize = b.sampleSize := by
  rw [failure_eq_evaluate, evaluate_sampleSize]; rfl

lemma failure_maxFailRate (b : CircuitBreaker) (ms now : ℚ) :
    (failure b ms now).maxFailRate = b.maxFailRate := by
  rw [failure_eq_evaluate, evaluate_maxFailRate]; rfl

lemma failure_maxP95Ms (b : CircuitBreaker) (ms now : ℚ) :
    (failure b ms now).maxP95Ms = b.maxP95Ms := by
  rw [failure_eq_evaluate, evaluate_maxP95Ms]; rfl

lemma feedStep_sampleSize (b : CircuitBreaker) (now : ℚ) (o : ℚ × Bool) :
    (feedStep now b o).sampleSize = b.sampleSize := by
  unfold feedStep
  split
  · exact success_sampleSize b o.1 now
  · exact failure_sampleSize b o.1 now

lemma feedStep_maxFailRate (b : CircuitBreaker) (now : ℚ) (o : ℚ × Bool) :
    (feedStep now b o).maxFailRate = b.maxFailRate := by
  unfold feedStep
  split
  · exact success_maxFailRate b o.1 now
  · exact failure_maxFailRate b o.1 now

lemma feedStep_maxP95Ms (b : CircuitBreaker) (now : ℚ) (o : ℚ × Bool) :
    (feedStep now b o).maxP95Ms = b.maxP95Ms := by
  unfold feedStep
  split
  · exact success_maxP95Ms b o.1 now
  · exact failure_maxP95Ms b o.1 now

lemma feed_sampleSize (b : CircuitBreaker) (l : List (ℚ × Bool)) (now : ℚ) :
    (feed b l now).sampleSize = b.sampleSize := by
  induction l generalizing b with
  | nil => rfl
  | cons o rest ih =>
    show (feed (feedStep now b o) rest now).sampleSize = b.sampleSize
    rw [ih, feedStep_sampleSize]

lemma feed_maxFailRate (b : CircuitBreaker) (l : List (ℚ × Bool)) (now : ℚ) :
    (feed b l now).maxFailRate = b.maxFailRate := by
  induction l generalizing b with
  | nil => rfl
  | cons o rest ih =>
    show (feed (feedStep now b o) rest now).maxFailRate = b.maxFailRate
    rw [ih, feedStep_maxFailRate]

lemma feed_maxP95Ms (b : CircuitBreaker) (l : List (ℚ × Bool)) (now : ℚ) :
    (feed b l now).maxP95Ms = b.maxP95Ms := by
  induction l generalizing b with
  | nil => rfl
  | cons o rest ih =>
    show (feed (feedStep now b o) rest now).maxP95Ms = b.maxP95Ms
    rw [ih, feedStep_maxP95Ms]

/-- Feeding at most `sampleSize` outcomes into a fresh closed breaker either
trips it open at some point, or it is still closed with the window holding
exactly the outcomes fed so far. -/
lemma feed_closed_cases (b0 : CircuitBreaker) (now : ℚ) (h0 : b0.state = .closed)
    (hout : b0.outcomes = []) (l : List (ℚ × Bool)) (hlen : l.length ≤ b0.sampleSize) :
    (feed b0 l now).state = .opened ∨
      ((feed b0 l now).state = .closed ∧ (feed b0 l now).outcomes = l) := by
  induction l using List.reverseRecOn with
  | nil =>
    right
    exact ⟨h0, hout⟩
  | append_singleton L x ih =>
    have hL : L.length ≤ b0.sampleSize := by
      simp only [List.length_append, List.length_cons, List.length_nil] at hlen
      omega
    rw [feed_append]
    rcases ih hL with hop | ⟨hcl, hout'⟩
    · left
      rw [feedStep_of_opened now x hop, pushOutcome_state]
      exact hop
    · rw [feedStep_of_closed now x hcl]
      by_cases ht : tripped (pushOutcome (feed b0 L now) x.1 x.2)
      · left
        rw [if_pos ht]
      · right
        rw [if_neg ht]
        refine ⟨by rw [pushOutcome_state]; exact hcl, ?_⟩
        rw [pushOutcome_outcomes_of_lt _ x.1 x.2 ?_, hout']
        rw [hout', feed_sampleSize]
        simp only [List.length_append, List.length_cons, List.length_nil] at hlen
        omega

/-! ## p95 and failRate lemmas -/

/-- `p95` of a nonempty list is an element of the list. -/
lemma p95_mem {values : List ℚ} (h : ¬ values.isEmpty = true) :
    p95 values ∈ values := by
  have hne : values ≠ [] := by simpa [List.isEmpty_iff] using h
  simp only [p95, h, if_false]
  set s := List.insertionSort (· ≤ ·) values with hs
  have hlen : s.length = values.length := by rw [hs, List.length_insertionSort]
  have hpos : 0 < s.length := by
    rw [hlen]
    exact List.length_pos.mpr hne
  have hidx : min (s.length - 1)
      (Int.floor ((95 : ℚ) / 100 * ((s.length - 1 : ℕ) : ℚ))).toNat < s.length := by
    exact lt_of_le_of_lt (min_le_left _ _) (by omega)
  rw [List.getD_eq_getElem _ _ hidx]
  exact (List.mem_insertionSort _).mp (List.getElem_mem _)

/-- If every sample duration is below `m > 0`, the derived p95 is below `m`. -/
lemma p95_lt_of_forall {values : List ℚ} {m : ℚ} (h : ∀ x ∈ values, x < m)
    (hm : 0 < m) : p95 values < m := by
  by_cases he : values.isEmpty = true
  · simp [p95, he, hm]
  · exact h _ (p95_mem he)

lemma failRate_of_ne_nil {l : List (ℚ × Bool)} (h : l ≠ []) :
    failRate l = (failCount l : ℚ) / (l.length : ℚ) := by
  simp [failRate, h]

/-- `int(0.95 * n)` over exact rationals, as integer arithmetic. -/
lemma floor_idx_toNat (n : ℕ) :
    (Int.floor ((95 : ℚ) / 100 * (n : ℚ))).toNat = 95 * n / 100 := by
  have h : ((95 : ℚ) / 100 * (n : ℚ)) = (((95 * n : ℕ) : ℤ) : ℚ) / ((100 : ℕ) : ℚ) := by
    push_cast
    ring
  rw [h, Rat.floor_intCast_div_natCast]
  omega

/-- The `min (len-1)` clamp in `p95` is redundant: the computed index never
exceeds `len - 1`. -/
lemma p95_idx_min_eq (n : ℕ) :
    min n (Int.floor ((95 : ℚ) / 100 * (n : ℚ))).toNat
      = (Int.floor ((95 : ℚ) / 100 * (n : ℚ))).toNat := by
  rw [floor_idx_toNat]
  refine min_eq_right ?_
  calc 95 * n / 100 ≤ 100 * n / 100 := Nat.div_le_div_right (by omega)
    _ = n := Nat.mul_div_cancel_left n (by norm_num)

@[simp] lemma init_state (n : ℕ) (r cd mp : ℚ) :
    (CircuitBreaker.init n r cd mp).state = .closed := rfl

@[simp] lemma init_outcomes (n : ℕ) (r cd mp : ℚ) :
    (CircuitBreaker.init n r cd mp).outcomes = [] := rfl

@[simp] lemma init_sampleSize (n : ℕ) (r cd mp : ℚ) :
    (CircuitBreaker.init n r cd mp).sampleSize = n := rfl

@[simp] lemma init_maxFailRate (n : ℕ) (r cd mp : ℚ) :
    (CircuitBreaker.init n r cd mp).maxFailRate = r := rfl

@[simp] lemma init_cooldownMs (n : ℕ) (r cd mp : ℚ) :
    (CircuitBreaker.init n r cd mp).cooldownMs = cd := rfl

@[simp] lemma init_maxP95Ms (n : ℕ) (r cd mp : ℚ) :
    (CircuitBreaker.init n r cd mp).maxP95Ms = mp := rfl

@[simp] lemma init_lastOpenedAtMs (n : ℕ) (r cd mp : ℚ) :
    (CircuitBreaker.init n r cd mp).lastOpenedAtMs = 0 := rfl

/-- Any sequence of 10 outcomes with exactly 4 failures drives a fresh
breaker with `max_fail_rate = 0.4`, `sample_size = 10` to `open`: either
some earlier prefix already tripped it (and open is absorbing), or the
final evaluation sees `fail_rate = 4/10 ≥ 0.4`. -/
lemma feed_four_failures_opens (cd mp now : ℚ) (l : List (ℚ × Bool))
    (hlen : l.length = 10) (hfail : failCount l = 4) :
    (feed (CircuitBreaker.init 10 (2/5) cd mp) l now).state = .opened := by
  set b0 := CircuitBreaker.init 10 (2/5) cd mp with hb0
  rcases List.eq_nil_or_concat l with rfl | ⟨L, x, rfl⟩
  · simp at hlen
  rw [List.concat_eq_append] at hlen hfail ⊢
  have hlenL : L.length = 9 := by
    simp only [List.length_append, List.length_cons, List.length_nil] at hlen
    omega
  have hL : L.length ≤ b0.sampleSize := by
    rw [hb0, init_sampleSize, hlenL]
    omega
  rw [feed_append]
  rcases feed_closed_cases b0 now (by rw [hb0, init_state]) (by rw [hb0, init_outcomes]) L hL
    with hop | ⟨hcl, hout⟩
  · rw [feedStep_of_opened now x hop, pushOutcome_state]
    exact hop
  · rw [feedStep_of_closed now x hcl]
    have hwin : (pushOutcome (feed b0 L now) x.1 x.2).outcomes = L ++ [x] := by
      rw [pushOutcome_outcomes_of_lt _ x.1 x.2 (by rw [hout, feed_sampleSize, hb0]; simp [hlenL]),
        hout]
    have ht : tripped (pushOutcome (feed b0 L now) x.1 x.2) := by
      unfold tripped
      left
      rw [hwin, pushOutcome_maxFailRate, feed_maxFailRate, hb0, init_maxFailRate,
        failRate_of_ne_nil (by simp), hfail, hlen]
      norm_num
    rw [if_pos ht]

/-- If no prefix of the fed outcomes reaches the failure-rate threshold and
every duration stays below the (positive) p95 threshold, a fresh breaker
stays closed through the whole sequence. -/
lemma feed_stays_closed (n : ℕ) (rate cd mp now : ℚ) (l : List (ℚ × Bool))
    (hlen : l.length ≤ n) (hmp : 0 < mp) (hdur : ∀ o ∈ l, o.1 < mp)
    (hpref : ∀ k : ℕ, k ≤ l.length → k ≠ 0 → failRate (l.take k) < rate) :
    (feed (CircuitBreaker.init n rate cd mp) l now).state = .closed ∧
      (feed (CircuitBreaker.init n rate cd mp) l now).outcomes = l := by
  induction l using List.reverseRecOn with
  | nil => exact ⟨rfl, rfl⟩
  | append_singleton L x ih =>
    have hlenL : L.length + 1 ≤ n := by
      simpa using hlen
    have hdur' : ∀ o ∈ L, o.1 < mp := fun o ho => hdur o (by simp [ho])
    have hpref' : ∀ k : ℕ, k ≤ L.length → k ≠ 0 → failRate (L.take k) < rate := by
      intro k hk hk0
      have hk' : k ≤ (L ++ [x]).length := by
        simp only [List.length_append, List.length_cons, List.length_nil]
        omega
      have h := hpref k hk' hk0
      rwa [List.take_append_of_le_length hk] at h
    obtain ⟨hcl, hout⟩ := ih (by omega) hdur' hpref'
    rw [feed_append, feedStep_of_closed now x hcl]
    have hwin : (pushOutcome (feed (CircuitBreaker.init n rate cd mp) L now) x.1 x.2).outcomes
        = L ++ [x] := by
      rw [pushOutcome_outcomes_of_lt _ x.1 x.2
        (by rw [hout, feed_sampleSize, init_sampleSize]; omega), hout]
    have hnt : ¬ tripped (pushOutcome (feed (CircuitBreaker.init n rate cd mp) L now) x.1 x.2) := by
      unfold tripped
      push_neg
      constructor
      · rw [hwin, pushOutcome_maxFailRate, feed_maxFailRate, init_maxFailRate]
        have hfull : (L ++ [x]).length ≤ (L ++ [x]).length := le_refl _
        have h := hpref (L ++ [x]).length hfull (by simp)
        rwa [List.take_of_length_le (le_refl _)] at h
      · rw [hwin, pushOutcome_maxP95Ms, feed_maxP95Ms, init_maxP95Ms]
        refine p95_lt_of_forall ?_ hmp
        intro d hd
        simp only [durations, List.mem_map] at hd
        obtain ⟨o, ho, rfl⟩ := hd
        exact hdur o ho
    rw [if_neg hnt]
    exact ⟨by rw [pushOutcome_state]; exact hcl, hwin⟩

/-! ## Probe-state characterizations -/

lemma success_probe_tripped {b : CircuitBreaker} (ms now : ℚ) (h : b.state = .probe)
    (ht : tripped (pushOutcome b ms true)) :
    success b ms now = { pushOutcome b ms true with state := .opened, lastOpenedAtMs := now } := by
  rw [success_of_probe ms now h,
    evaluate_of_tripped now (by intro hc; cases hc) ((tripped_set_state _ _).mpr ht)]

lemma success_probe_not_tripped {b : CircuitBreaker} (ms now : ℚ) (h : b.state = .probe)
    (hnt : ¬ tripped (pushOutcome b ms true)) :
    success b ms now = { pushOutcome b ms true with state := .closed } := by
  rw [success_of_probe ms now h,
    evaluate_of_not_tripped now (fun hc => hnt ((tripped_set_state _ _).mp hc))]

lemma failure_tripped {b : CircuitBreaker} (ms now : ℚ) (h : b.state ≠ .opened)
    (ht : tripped (pushOutcome b ms false)) :
    failure b ms now = { pushOutcome b ms false with state := .opened, lastOpenedAtMs := now } := by
  rw [failure_eq_evaluate, evaluate_of_tripped now (by rw [pushOutcome_state]; exact h) ht]

lemma failure_not_tripped {b : CircuitBreaker} (ms now : ℚ)
    (hnt : ¬ tripped (pushOutcome b ms false)) :
    failure b ms now = pushOutcome b ms false := by
  rw [failure_eq_evaluate, evaluate_of_not_tripped now hnt]

/-! ## canProbe / enterProbe -/

lemma canProbe_eq_false_of_not_opened {b : CircuitBreaker} (t : ℚ)
    (h : b.state ≠ .opened) : canProbe b t = false := by
  unfold canProbe
  simp [h]

lemma canProbe_eq_false_of_lt {b : CircuitBreaker} (t : ℚ)
    (h : t - b.lastOpenedAtMs < b.cooldownMs) : canProbe b t = false := by
  unfold canProbe
  simp [not_le.mpr h]

lemma canProbe_eq_true {b : CircuitBreaker} (t : ℚ) (h : b.state = .opened)
    (h2 : t - b.lastOpenedAtMs ≥ b.cooldownMs) : canProbe b t = true := by
  unfold canProbe
  simp [h, h2]

lemma enterProbe_of_canProbe_false {b : CircuitBreaker} (t : ℚ)
    (h : canProbe b t = false) : enterProbe b t = b := by
  unfold enterProbe
  simp [h]

lemma enterProbe_of_canProbe_true {b : CircuitBreaker} (t : ℚ)
    (h : canProbe b t = true) : enterProbe b t = { b with state := .probe } := by
  unfold enterProbe
  simp [h]

/-! ## Supplier chain lemmas -/

lemma mirrorOf_ne (r : Region) : mirrorOf r ≠ r := by
  cases r <;> simp [mirrorOf]

@[simp] lemma updBrk_same (brks : Region → CircuitBreaker) (r : Region) (b : CircuitBreaker) :
    updBrk brks r b r = b := by
  simp [updBrk]

lemma updBrk_other (brks : Region → CircuitBreaker) (r : Region) (b : CircuitBreaker)
    {r' : Region} (h : r' ≠ r) : updBrk brks r b r' = brks r' := by
  simp [updBrk, h]

/-- `attempt` when the region's breaker is open and not yet eligible to
probe: no call is made, the tag `supplier_open` is appended. -/
lemma attempt_skip (fetch : Region → Option (ℤ × ℚ)) (nowMono nowWall : ℚ) (r : Region)
    (st : SupplierSt) (h1 : (st.brks r).state = .opened)
    (h2 : canProbe (st.brks r) nowMono = false) :
    attempt fetch nowMono nowWall r st =
      (none, { st with reasons := st.reasons ++ ["supplier_open"] }) := by
  simp only [attempt]
  rw [if_pos ⟨h1, h2⟩]

/-- `attempt` when the breaker admits the call but the call raises: the
breaker (after any probe entry) records `failure(900.0)`, the tag
`supplier_error_<region>` is appended, and no value is produced. -/
lemma attempt_fail (fetch : Region → Option (ℤ × ℚ)) (nowMono nowWall : ℚ) (r : Region)
    (st : SupplierSt)
    (h : ¬ ((st.brks r).state = .opened ∧ canProbe (st.brks r) nowMono = false))
    (hf : fetch r = none) :
    attempt fetch nowMono nowWall r st =
      (none, { st with
        brks := updBrk st.brks r (failure (enterProbe (st.brks r) nowMono) 900 nowMono),
        reasons := st.reasons ++ ["supplier_error_" ++ r.str],
        calls := st.calls ++ [r] }) := by
  simp only [attempt]
  rw [if_neg h, hf]

/-- `get_price` when the primary and mirror calls both fail or are skipped
and the cache misses: the baseline estimate is returned, degraded, with one
tag per supplier step followed by `used_baseline`. -/
lemma getPrice_allFail (fetch : Region → Option (ℤ × ℚ)) (nowMono nowWall : ℚ)
    (sku : String) (preferred : Region) (brks0 : Region → CircuitBreaker)
    (hfp : fetch preferred = none) (hfm : fetch (mirrorOf preferred) = none) :
    (getPrice fetch nowMono nowWall sku preferred brks0 none).1 =
      ⟨baselineEstimateCents sku, true,
        (if (brks0 preferred).state = .opened ∧ canProbe (brks0 preferred) nowMono = false
          then ["supplier_open"] else ["supplier_error_" ++ preferred.str])
        ++ (if (brks0 (mirrorOf preferred)).state = .opened
              ∧ canProbe (brks0 (mirrorOf preferred)) nowMono = false
          then ["supplier_open"] else ["supplier_error_" ++ (mirrorOf preferred).str])
        ++ ["used_baseline"], none⟩ := by
  simp only [getPrice]
  by_cases h1 : (brks0 preferred).state = .opened ∧ canProbe (brks0 preferred) nowMono = false
  · rw [attempt_skip fetch nowMono nowWall preferred ⟨brks0, none, [], []⟩ h1.1 h1.2]
    dsimp only [List.nil_append]
    by_cases h2 : (brks0 (mirrorOf preferred)).state = .opened
        ∧ canProbe (brks0 (mirrorOf preferred)) nowMono = false
    · rw [attempt_skip fetch nowMono nowWall (mirrorOf preferred)
        ⟨brks0, none, ["supplier_open"], []⟩ h2.1 h2.2]
      simp [h1, h2]
    · rw [attempt_fail fetch nowMono nowWall (mirrorOf preferred)
        ⟨brks0, none, ["supplier_open"], []⟩ h2 hfm]
      simp [h1, h2]
  · rw [attempt_fail fetch nowMono nowWall preferred ⟨brks0, none, [], []⟩ h1 hfp]
    dsimp only [List.nil_append]
    have hbm : updBrk brks0 preferred
        (failure (enterProbe (brks0 preferred) nowMono) 900 nowMono) (mirrorOf preferred)
        = brks0 (mirrorOf preferred) := updBrk_other _ _ _ (mirrorOf_ne preferred)
    by_cases h2 : (brks0 (mirrorOf preferred)).state = .opened
        ∧ canProbe (brks0 (mirrorOf preferred)) nowMono = false
    · rw [attempt_skip fetch nowMono nowWall (mirrorOf preferred)
        ⟨updBrk brks0 preferred (failure (enterProbe (brks0 preferred) nowMono) 900 nowMono),
          none, ["supplier_error_" ++ preferred.str], [preferred]⟩
        (by dsimp only; rw [hbm]; exact h2.1) (by dsimp only; rw [hbm]; exact h2.2)]
      simp [h1, h2]
    · rw [attempt_fail fetch nowMono nowWall (mirrorOf preferred)
        ⟨updBrk brks0 preferred (failure (enterProbe (brks0 preferred) nowMono) 900 nowMono),
          none, ["supplier_error_" ++ preferred.str], [preferred]⟩
        (by dsimp only; rw [hbm]; exact h2) hfm]
      simp [h1, h2]

/-- `get_price` in the C5 scenario shape: preferred `us-west` breaker open
with its cooldown not elapsed, `us-east` breaker closed, the `us-east` call
fails, and the cache holds an entry: the primary is skipped without being
called, only the mirror is called, and the cached value is returned with
its freshness label. -/
lemma getPrice_westOpen_eastFail_cached (fetch : Region → Option (ℤ × ℚ))
    (nowMono nowWall : ℚ) (sku : String) (brks0 : Region → CircuitBreaker)
    (cents : ℤ) (ts : ℚ)
    (hw1 : (brks0 .usWest).state = .opened) (hw2 : canProbe (brks0 .usWest) nowMono = false)
    (he : (brks0 .usEast).state = .closed) (hf : fetch .usEast = none) :
    (getPrice fetch nowMono nowWall sku .usWest brks0 (some (cents, ts))).1 =
        ⟨cents, true, ["supplier_open", "supplier_error_us-east", "used_cache"],
          some (freshnessLabel nowWall ts)⟩
      ∧ (getPrice fetch nowMono nowWall sku .usWest brks0 (some (cents, ts))).2.calls
        = [Region.usEast] := by
  have hmir : mirrorOf .usWest = .usEast := by simp [mirrorOf]
  simp only [getPrice, hmir]
  rw [attempt_skip fetch nowMono nowWall .usWest ⟨brks0, some (cents, ts), [], []⟩ hw1 hw2]
  dsimp only [List.nil_append]
  rw [attempt_fail fetch nowMono nowWall .usEast
    ⟨brks0, some (cents, ts), ["supplier_open"], []⟩
    (by rintro ⟨hc, -⟩; rw [he] at hc; cases hc) hf]
  refine ⟨?_, by simp⟩
  simp
  decide

/-- A cache entry stored 30 minutes (1 800 000 ms) before `now` is labelled
`"30m old"`. -/
lemma freshnessLabel_30m (w : ℚ) : freshnessLabel w (w - 1800000) = "30m old" := by
  simp only [freshnessLabel]
  have hage : w - (w - 1800000) = (1800000 : ℚ) := by ring
  rw [hage]
  have h1 : Int.floor ((1800000 : ℚ) / (1000 * 60 * 60)) = 0 := by
    rw [Int.floor_eq_iff]
    norm_num
  rw [h1]
  have h2 : Int.floor (((1800000 : ℚ) - 1000 * 60 * 60 * ((0 : ℤ) : ℚ)) / (1000 * 60)) = 30 := by
    rw [Int.floor_eq_iff]
    norm_num
  rw [h2]
  norm_num
  decide

/-! ## Allergen chain lemmas -/

lemma allergensFor_skip (recipe : Recipe) (outcome : AllergenOutcome) (now : ℚ)
    (brk : CircuitBreaker) (h1 : brk.state = .opened) (h2 : canProbe brk now = false) :
    allergensFor recipe outcome now brk = allergenFallback recipe ["allergen_open"] brk := by
  simp only [allergensFor]
  rw [if_pos ⟨h1, h2⟩]

lemma allergensFor_err (recipe : Recipe) (msg : String) (now : ℚ) (brk : CircuitBreaker)
    (h : ¬ (brk.state = .opened ∧ canProbe brk now = false)) :
    allergensFor recipe (.err msg) now brk =
      allergenFallback recipe
        [if strContainsSub (lowerStr msg) "timeout" then "allergen_timeout"
          else "allergen_invalid_json"]
        (failure (enterProbe brk now) 800 now) := by
  simp only [allergensFor]
  rw [if_neg h]

lemma mem_sortedDedup {x : String} {l : List String} : x ∈ sortedDedup l ↔ x ∈ l := by
  simp [sortedDedup, sortStrings, List.mem_insertionSort, List.mem_dedup]

lemma sorted_sortedDedup (l : List String) : List.Sorted (· ≤ ·) (sortedDedup l) :=
  List.sorted_insertionSort _ _

lemma nodup_sortedDedup (l : List String) : (sortedDedup l).Nodup :=
  (List.perm_insertionSort _ l.dedup).symm.nodup (List.nodup_dedup l)

lemma mem_allergenFallback_items (recipe : Recipe) (reasons0 : List String)
    (brk : CircuitBreaker) (x : String) :
    x ∈ (allergenFallback recipe reasons0 brk).1.items ↔
      x ∈ recipe.allergen_tags.map lowerStr ∨ x ∈ llmItems := by
  simp [allergenFallback, mem_sortedDedup]

lemma probeFail_push_outcomes (ok : Bool) :
    (pushOutcome bProbeFail 100 ok).outcomes
      = List.replicate 9 ((900 : ℚ), false) ++ [((100 : ℚ), ok)] :=
  pushOutcome_outcomes_of_lt _ _ _ (by simp [bProbeFail])

lemma probeClean_push_outcomes (ok : Bool) :
    (pushOutcome bProbeClean 100 ok).outcomes
      = List.replicate 9 ((100 : ℚ), true) ++ [((100 : ℚ), ok)] :=
  pushOutcome_outcomes_of_lt _ _ _ (by simp [bProbeClean])

/-- After one more sample the failure-laden probe window still breaches the
0.4 failure-rate threshold (rate ≥ 9/10). -/
lemma tripped_probeFail_push (ok : Bool) : tripped (pushOutcome bProbeFail 100 ok) := by
  unfold tripped
  left
  rw [probeFail_push_outcomes ok, pushOutcome_maxFailRate,
    failRate_of_ne_nil (by simp)]
  cases ok <;>
    norm_num [failCount, List.filter_append, List.filter_replicate, bProbeFail]

/-- After one more sample (success or failure) the clean probe window stays
below both thresholds: failure rate ≤ 1/10 < 0.4 and every duration is
100 ms < 1200 ms. -/
lemma not_tripped_probeClean_push (ok : Bool) :
    ¬ tripped (pushOutcome bProbeClean 100 ok) := by
  unfold tripped
  push_neg
  constructor
  · rw [probeClean_push_outcomes ok, pushOutcome_maxFailRate,
      failRate_of_ne_nil (by simp)]
    cases ok <;>
      norm_num [failCount, List.filter_append, List.filter_replicate, bProbeClean]
  · rw [probeClean_push_outcomes ok, pushOutcome_maxP95Ms,
      show bProbeClean.maxP95Ms = 1200 from rfl]
    refine p95_lt_of_forall ?_ (by norm_num)
    intro x hx
    simp only [durations, List.map_append, List.map_replicate, List.mem_append,
      List.mem_replicate, List.map_cons, List.map_nil, List.mem_cons,
      List.not_mem_nil, or_false, ne_eq] at hx
    rcases hx with ⟨-, rfl⟩ | rfl <;> norm_num

lemma feed_cons (b : CircuitBreaker) (x : ℚ × Bool) (rest : List (ℚ × Bool)) (now : ℚ) :
    feed b (x :: rest) now = feed (feedStep now b x) rest now := rfl

/-- Comparing a failure rate against a rational threshold `a/b` by
cross-multiplication, turning it into decidable integer arithmetic. -/
lemma failRate_lt_iff {l : List (ℚ × Bool)} (h : l ≠ []) (a b : ℕ) (hb : 0 < b) :
    failRate l < (a : ℚ) / (b : ℚ) ↔ failCount l * b < a * l.length := by
  rw [failRate_of_ne_nil h]
  have hlen : (0 : ℚ) < (l.length : ℚ) := by
    exact_mod_cast List.length_pos.mpr h
  rw [div_lt_div_iff₀ hlen (by exact_mod_cast hb)]
  constructor
  · intro hq
    exact_mod_cast hq
  · intro hn
    exact_mod_cast hn

lemma feed_badOrderC6_opened (cd : ℚ) :
    (feed (CircuitBreaker.init 10 (2/5) cd 1000) badOrderC6 0).state = .opened := by
  rw [show badOrderC6 = ((100 : ℚ), false) ::
      (List.replicate 2 ((100 : ℚ), false) ++ List.replicate 7 ((100 : ℚ), true)) from rfl,
    feed_cons]
  apply feed_state_of_opened
  rw [feedStep_of_closed 0 _ (init_state _ _ _ _)]
  have ht : tripped (pushOutcome (CircuitBreaker.init 10 (2/5) cd 1000) 100 false) := by
    unfold tripped
    left
    rw [pushOutcome_outcomes_of_lt _ _ _ (by simp), pushOutcome_maxFailRate, init_maxFailRate,
      init_outcomes, failRate_of_ne_nil (by simp)]
    norm_num [failCount]
  rw [if_pos ht]

lemma feed_goodOrderC6_closed (cd : ℚ) :
    (feed (CircuitBreaker.init 10 (2/5) cd 1000) goodOrderC6 0).state = .closed := by
  refine (feed_stays_closed 10 (2/5) cd 1000 0 goodOrderC6 (by norm_num [goodOrderC6])
    (by norm_num) ?_ ?_).1
  · intro o ho
    fin_cases ho <;> norm_num
  · intro k hk hk0
    have hne : goodOrderC6.take k ≠ [] := by
      rw [ne_eq, List.take_eq_nil_iff]
      push_neg
      exact ⟨hk0, by simp [goodOrderC6]⟩
    rw [show ((2 : ℚ)/5) = ((2 : ℕ) : ℚ) / ((5 : ℕ) : ℚ) by norm_num,
      failRate_lt_iff hne 2 5 (by norm_num)]
    have hk10 : k ≤ 10 := by simpa [goodOrderC6] using hk
    have hk1 : 1 ≤ k := Nat.one_le_iff_ne_zero.mpr hk0
    interval_cases k <;> decide

/-- A fresh breaker with `max_p95 = 1000` fed twenty 1200 ms successes trips
at the very first sample (`p95 = 1200 ≥ 1000`) and stays open. -/
lemma feed_latencyTrip_opened (cd : ℚ) :
    (feed (CircuitBreaker.init 40 (2/5) cd 1000)
      (List.replicate 20 ((1200 : ℚ), true)) 0).state = .opened := by
  rw [show List.replicate 20 ((1200 : ℚ), true)
      = ((1200 : ℚ), true) :: List.replicate 19 ((1200 : ℚ), true) from rfl, feed_cons]
  apply feed_state_of_opened
  rw [feedStep_of_closed 0 _ (init_state _ _ _ _)]
  have ht : tripped (pushOutcome (CircuitBreaker.init 40 (2/5) cd 1000) 1200 true) := by
    unfold tripped
    right
    rw [pushOutcome_outcomes_of_lt _ _ _ (by simp), pushOutcome_maxP95Ms, init_maxP95Ms,
      init_outcomes]
    norm_num [durations, p95, List.insertionSort, List.orderedInsert]
  rw [if_pos ht]

/-- An empty window derives `failRate = 0` and `p95 = 0`, so a fresh breaker
with positive thresholds does not trip on evaluation. -/
lemma evaluate_init_closed (n : ℕ) (fr cd mp t : ℚ) (h1 : 0 < fr) (h2 : 0 < mp) :
    (evaluate (CircuitBreaker.init n fr cd mp) t).state = .closed := by
  have hnt : ¬ tripped (CircuitBreaker.init n fr cd mp) := by
    unfold tripped
    push_neg
    constructor
    · rw [init_outcomes, init_maxFailRate]
      simpa [failRate] using h1
    · rw [init_outcomes, init_maxP95Ms]
      simpa [durations, p95] using h2
  rw [evaluate_of_not_tripped t hnt]
  rfl

/-! ## Claims -/

/-- **C1 counterexample**: the claim counts the cache among the
fail-capable non-terminal steps and requires the reasons list to hold one
tag per skipped/failed step plus the terminal tag — four entries when the
primary is skipped, the mirror is skipped, and the cache misses — but the
code's cache miss (main.py 375-380) falls through silently without a tag:
in that all-fail run the reasons list is just the two supplier tags plus
`used_baseline`, three entries, not four. -/
theorem C1_counterexample :
    (getPrice (fun _ => none) 0 0 "SKU_X" Region.usEast (fun _ => bOpen) none).1.reasons
      = ["supplier_open", "supplier_open", "used_baseline"]
    ∧ (getPrice (fun _ => none) 0 0 "SKU_X" Region.usEast
        (fun _ => bOpen) none).1.reasons.length ≠ 3 + 1 := by
  have h := getPrice_allFail (fun _ => none) 0 0 "SKU_X" Region.usEast
    (fun _ => bOpen) rfl rfl
  have hcp : canProbe bOpen 0 = false :=
    canProbe_eq_false_of_lt 0 (by norm_num [bOpen])
  have hcond : bOpen.state = BState.opened ∧ canProbe bOpen 0 = false := ⟨rfl, hcp⟩
  have hr : (getPrice (fun _ => none) 0 0 "SKU_X" Region.usEast
      (fun _ => bOpen) none).1.reasons
      = ["supplier_open", "supplier_open", "used_baseline"] := by
    rw [h]
    simp only [if_pos hcond]
    rfl
  exact ⟨hr, by rw [hr]; decide⟩

/-- **C1 amended** (corrected): the supplier fallback chain is total by
construction (`getPrice` is a total function: for every breaker state,
call-outcome oracle and cache content it returns a `PriceResult`, never an
exception), and when every non-terminal step fails or is skipped — primary
and mirror calls failing or skipped (breaker open and not probing), cache
missing — the returned value is the baseline estimate with
`is_degraded = true` and a reasons list holding one tag per skipped
(`supplier_open`) or failed (`supplier_error_<region>`) *supplier call*
step followed by the terminal tag `used_baseline`; the cache miss itself
contributes no tag. -/
theorem C1_chain_terminal_guarantee (fetch : Region → Option (ℤ × ℚ))
    (nowMono nowWall : ℚ) (sku : String) (preferred : Region)
    (brks0 : Region → CircuitBreaker)
    (hfp : fetch preferred = none) (hfm : fetch (mirrorOf preferred) = none) :
    (getPrice fetch nowMono nowWall sku preferred brks0 none).1 =
      ⟨baselineEstimateCents sku, true,
        (if (brks0 preferred).state = .opened ∧ canProbe (brks0 preferred) nowMono = false
          then ["supplier_open"] else ["supplier_error_" ++ preferred.str])
        ++ (if (brks0 (mirrorOf preferred)).state = .opened
              ∧ canProbe (brks0 (mirrorOf preferred)) nowMono = false
          then ["supplier_open"] else ["supplier_error_" ++ (mirrorOf preferred).str])
        ++ ["used_baseline"], none⟩ :=
  getPrice_allFail fetch nowMono nowWall sku preferred brks0 hfp hfm

/-- Witness for C1 amended: both region breakers open and cooling down,
every fetch raising, cache empty — the result is the generic 250-cent
baseline with tags `supplier_open`, `supplier_open`, `used_baseline`. -/
theorem C1_witness :
    (fun _ : Region => (none : Option (ℤ × ℚ))) Region.usEast = none
    ∧ (getPrice (fun _ => none) 0 0 "SKU_X" Region.usEast (fun _ => bOpen) none).1
      = ⟨250, true, ["supplier_open", "supplier_open", "used_baseline"], none⟩ := by
  refine ⟨rfl, ?_⟩
  have h := C1_chain_terminal_guarantee (fun _ => none) 0 0 "SKU_X" Region.usEast
    (fun _ => bOpen) rfl rfl
  rw [h]
  have hcp : canProbe bOpen 0 = false :=
    canProbe_eq_false_of_lt 0 (by norm_num [bOpen])
  have hcond : bOpen.state = BState.opened ∧ canProbe bOpen 0 = false := ⟨rfl, hcp⟩
  simp only [if_pos hcond]
  have hbase : baselineEstimateCents "SKU_X" = 250 := by decide
  rw [hbase]
  rfl

/-- **C2** (confirmed): in closed state each reported outcome re-derives
the window statistics and trips to open (with `openedAt = now`) exactly
when `failRate ≥ maxFailRate` or `p95 ≥ maxP95Ms`; a breaker with
`maxP95Ms = 1000` fed twenty 1200 ms successes ends open despite a 0%
failure rate; an empty window derives `failRate = 0` and `p95 = 0`, so a
fresh breaker with positive thresholds does not trip on evaluation. -/
theorem C2_closed_trip_characterization (b : CircuitBreaker) (ms now : ℚ)
    (hb : b.state = .closed) :
    ClosedStepSpec b ms now
    ∧ (feed (CircuitBreaker.init 40 (2/5) 15000 1000)
        (List.replicate 20 ((1200 : ℚ), true)) 0).state = .opened
    ∧ failRate [] = 0 ∧ p95 [] = 0
    ∧ (∀ (n : ℕ) (fr cd mp t : ℚ), 0 < fr → 0 < mp →
        (evaluate (CircuitBreaker.init n fr cd mp) t).state = .closed) := by
  have hbne : b.state ≠ BState.probe := by rw [hb]; intro hc; cases hc
  have hs := success_of_not_probe ms now hbne
  have hpne : (pushOutcome b ms true).state ≠ BState.opened := by
    rw [pushOutcome_state, hb]; intro hc; cases hc
  have hpne2 : (pushOutcome b ms false).state ≠ BState.opened := by
    rw [pushOutcome_state, hb]; intro hc; cases hc
  refine ⟨⟨?_, ?_, ?_, ?_⟩, feed_latencyTrip_opened 15000, rfl, rfl,
    fun n fr cd mp t h1 h2 => evaluate_init_closed n fr cd mp t h1 h2⟩
  · rw [hs]
    by_cases ht : tripped (pushOutcome b ms true)
    · rw [evaluate_of_tripped now hpne ht]
      simpa using ht
    · rw [evaluate_of_not_tripped now ht, pushOutcome_state, hb]
      simp [ht]
  · intro hop
    rw [hs] at hop ⊢
    by_cases ht : tripped (pushOutcome b ms true)
    · rw [evaluate_of_tripped now hpne ht]
    · rw [evaluate_of_not_tripped now ht] at hop
      exact absurd hop (by rw [pushOutcome_state, hb]; intro hc; cases hc)
  · rw [failure_eq_evaluate]
    by_cases ht : tripped (pushOutcome b ms false)
    · rw [evaluate_of_tripped now hpne2 ht]
      simpa using ht
    · rw [evaluate_of_not_tripped now ht, pushOutcome_state, hb]
      simp [ht]
  · intro hop
    rw [failure_eq_evaluate] at hop ⊢
    by_cases ht : tripped (pushOutcome b ms false)
    · rw [evaluate_of_tripped now hpne2 ht]
    · rw [evaluate_of_not_tripped now ht] at hop
      exact absurd hop (by rw [pushOutcome_state, hb]; intro hc; cases hc)

/-- Witness for C2: a fresh closed supplier breaker satisfies the closed
step characterization, and an empty-window evaluation at positive
thresholds stays closed. -/
theorem C2_witness :
    bClosedFresh.state = .closed
    ∧ ClosedStepSpec bClosedFresh 100 7
    ∧ (evaluate (CircuitBreaker.init 40 (2/5) 15000 1200) 3).state = .closed :=
  ⟨rfl, (C2_closed_trip_characterization bClosedFresh 100 7 rfl).1,
    (C2_closed_trip_characterization bClosedFresh 100 7 rfl).2.2.2.2
      40 (2/5) 15000 1200 3 (by norm_num) (by norm_num)⟩

/-- **C10** (confirmed): while a breaker is open, `success`/`failure` only
append the sample to the window — neither the state nor `openedAt`
changes (`_evaluate` performs no transition while open); `enter_probe` is
the only way out of open, and it changes state only when the breaker is
open with its cooldown elapsed — from any other state, or before the
cooldown, it is a no-op. -/
theorem C10_open_state_frozen (b : CircuitBreaker) (ms now t : ℚ) :
    (b.state = .opened →
      (success b ms now).state = .opened
      ∧ (success b ms now).lastOpenedAtMs = b.lastOpenedAtMs
      ∧ (success b ms now).outcomes = (pushOutcome b ms true).outcomes
      ∧ (failure b ms now).state = .opened
      ∧ (failure b ms now).lastOpenedAtMs = b.lastOpenedAtMs
      ∧ (failure b ms now).outcomes = (pushOutcome b ms false).outcomes)
    ∧ (b.state ≠ .opened → enterProbe b t = b)
    ∧ (b.state = .opened → t - b.lastOpenedAtMs < b.cooldownMs → enterProbe b t = b)
    ∧ (b.state = .opened → b.cooldownMs ≤ t - b.lastOpenedAtMs →
        enterProbe b t = { b with state := .probe }) := by
  refine ⟨?_, ?_, ?_, ?_⟩
  · intro hb
    rw [success_of_opened ms now hb, failure_of_opened ms now hb]
    exact ⟨by rw [pushOutcome_state]; exact hb, rfl, rfl,
      by rw [pushOutcome_state]; exact hb, rfl, rfl⟩
  · intro hb
    exact enterProbe_of_canProbe_false t (canProbe_eq_false_of_not_opened t hb)
  · intro hb hlt
    exact enterProbe_of_canProbe_false t (canProbe_eq_false_of_lt t hlt)
  · intro hb hge
    exact enterProbe_of_canProbe_true t (canProbe_eq_true t hb hge)

/-- Witness for C10 at concrete breakers: an open breaker absorbs a
success without leaving open, `enter_probe` is a no-op from closed and
before the cooldown, and fires after the cooldown. -/
theorem C10_witness :
    (success bOpen 5 9).state = .opened
    ∧ enterProbe bClosedFresh 9 = bClosedFresh
    ∧ enterProbe bOpen 9 = bOpen
    ∧ (enterProbe bOpen 99999).state = .probe := by
  refine ⟨((C10_open_state_frozen bOpen 5 9 0).1 rfl).1,
    (C10_open_state_frozen bClosedFresh 5 9 9).2.1 (by intro hc; cases hc),
    (C10_open_state_frozen bOpen 5 9 9).2.2.1 rfl (by norm_num [bOpen]),
    ?_⟩
  rw [(C10_open_state_frozen bOpen 5 9 99999).2.2.2 rfl (by norm_num [bOpen])]

/-- **C3 counterexample**: the claim "from probe, one success always ends
closed, for every prior window content" is false — `success` sets the state
to closed and then still runs `_evaluate`, which re-trips on the stale
window: a probing breaker whose window holds nine failures ends `open`
after a fast success, not `closed`. -/
theorem C3_counterexample :
    (success bProbeFail 100 50000).state = .opened
    ∧ (success bProbeFail 100 50000).state ≠ .closed := by
  have h := @success_probe_tripped bProbeFail 100 50000 rfl (tripped_probeFail_push true)
  rw [h]
  exact ⟨rfl, by intro hc; cases hc⟩

/-- **C3 amended** (corrected): from probe, `success` pushes the sample,
moves to closed, and then *re-runs the trip evaluation* (it is not
bypassed): the final state is closed iff the post-push window is below both
thresholds; otherwise the breaker re-opens with `openedAt = now`. -/
theorem C3_probe_success_reevaluates (b : CircuitBreaker) (ms now : ℚ)
    (hb : b.state = .probe) :
    (¬ tripped (pushOutcome b ms true) → (success b ms now).state = .closed)
    ∧ (tripped (pushOutcome b ms true) →
        (success b ms now).state = .opened ∧ (success b ms now).lastOpenedAtMs = now) := by
  constructor
  · intro hnt
    rw [success_probe_not_tripped ms now hb hnt]
  · intro ht
    rw [success_probe_tripped ms now hb ht]
    exact ⟨rfl, rfl⟩

/-- Witness for C3 amended: a probing breaker with a clean window closes on
success; one with a failure-laden window re-opens. -/
theorem C3_witness :
    bProbeClean.state = .probe
    ∧ (success bProbeClean 100 50000).state = .closed
    ∧ (success bProbeFail 100 50000).state = .opened :=
  ⟨rfl,
    (C3_probe_success_reevaluates bProbeClean 100 50000 rfl).1
      (not_tripped_probeClean_push true),
    ((C3_probe_success_reevaluates bProbeFail 100 50000 rfl).2
      (tripped_probeFail_push true)).1⟩

/-- **C4 counterexample**: the claim "from probe, one failure always leaves
the breaker open, for every prior window content" is false — when the
post-push window stays below both thresholds (here nine fast successes plus
the one failure: rate `1/10 < 0.4`, p95 `100 < 1200`), `_evaluate` performs
no transition and the breaker stays in `probe`. -/
theorem C4_counterexample :
    (failure bProbeClean 100 50000).state = .probe
    ∧ (failure bProbeClean 100 50000).state ≠ .opened := by
  have h := @failure_not_tripped bProbeClean 100 50000 (not_tripped_probeClean_push false)
  rw [h]
  exact ⟨rfl, by intro hc; cases hc⟩

/-- **C4 amended** (corrected): from probe, `failure` pushes the sample and
re-evaluates; *when the post-push window breaches a threshold* (as it
always does when the window still holds the samples that tripped the
breaker) the breaker re-opens with `openedAt` reset to the failure time, so
`canProbe` before the restarted cooldown returns false; when the post-push
window is below both thresholds the breaker stays in `probe` with
`openedAt` unchanged. -/
theorem C4_probe_failure_reevaluates (b : CircuitBreaker) (ms now : ℚ)
    (hb : b.state = .probe) :
    (tripped (pushOutcome b ms false) →
      (failure b ms now).state = .opened
      ∧ (failure b ms now).lastOpenedAtMs = now
      ∧ (∀ t, t - now < b.cooldownMs → canProbe (failure b ms now) t = false))
    ∧ (¬ tripped (pushOutcome b ms false) →
        (failure b ms now).state = .probe
        ∧ (failure b ms now).lastOpenedAtMs = b.lastOpenedAtMs) := by
  constructor
  · intro ht
    have h := failure_tripped ms now (by rw [hb]; intro hc; cases hc) ht
    rw [h]
    refine ⟨rfl, rfl, ?_⟩
    intro t hlt
    exact canProbe_eq_false_of_lt t hlt
  · intro hnt
    rw [failure_not_tripped ms now hnt]
    exact ⟨by rw [pushOutcome_state]; exact hb, rfl⟩

/-- Witness for C4 amended: a probe failure on the stale failure-laden
window re-opens with `openedAt = 50000`, so probing at `60000` (before the
15 000 ms cooldown has elapsed again) is refused; on the clean window the
breaker stays probing. -/
theorem C4_witness :
    (failure bProbeFail 100 50000).state = .opened
    ∧ (failure bProbeFail 100 50000).lastOpenedAtMs = 50000
    ∧ canProbe (failure bProbeFail 100 50000) 60000 = false
    ∧ (failure bProbeClean 100 50000).state = .probe := by
  obtain ⟨h1, h2, h3⟩ := (C4_probe_failure_reevaluates bProbeFail 100 50000 rfl).1
    (tripped_probeFail_push false)
  exact ⟨h1, h2, h3 60000 (by norm_num [bProbeFail]),
    ((C4_probe_failure_reevaluates bProbeClean 100 50000 rfl).2
      (not_tripped_probeClean_push false)).1⟩

/-- **C5 counterexample**: in the end-to-end scenario (west breaker open
and cooling down, east closed, east call fails, cache holds 199 cents from
30 minutes ago) the reasons list is
`["supplier_open", "supplier_error_us-east", "used_cache"]` — the middle
tag carries the mirror *region name*, not the literal
`"supplier_error_mirror"` the claim states. -/
theorem C5_counterexample :
    (getPrice (fun _ => none) 1000 10000000 "X" .usWest brksC5
      (some (199, 10000000 - 1800000))).1.reasons
      = ["supplier_open", "supplier_error_us-east", "used_cache"]
    ∧ ["supplier_open", "supplier_error_us-east", "used_cache"]
      ≠ ["supplier_open", "supplier_error_mirror", "used_cache"] := by
  have h := getPrice_westOpen_eastFail_cached (fun _ => none) 1000 10000000 "X" brksC5
    199 (10000000 - 1800000) rfl
    (canProbe_eq_false_of_lt 1000 (by norm_num [brksC5, bOpen])) rfl rfl
  exact ⟨by rw [h.1], by decide⟩

/-- **C5 amended** (corrected): with the `us-west` breaker open and its
cooldown not elapsed, the `us-east` breaker closed, the cache holding 199
cents stored 30 minutes ago, and the mirror call failing, `get_price`
preferring `us-west` skips the primary without calling it, calls only
`us-east`, and returns 199 cents, degraded, with reasons exactly
`["supplier_open", "supplier_error_us-east", "used_cache"]` and freshness
`"30m old"`. -/
theorem C5_end_to_end (fetch : Region → Option (ℤ × ℚ)) (nowMono nowWall : ℚ)
    (sku : String) (brks0 : Region → CircuitBreaker)
    (hw1 : (brks0 .usWest).state = .opened)
    (hw2 : nowMono - (brks0 .usWest).lastOpenedAtMs < (brks0 .usWest).cooldownMs)
    (he : (brks0 .usEast).state = .closed) (hf : fetch .usEast = none) :
    (getPrice fetch nowMono nowWall sku .usWest brks0 (some (199, nowWall - 1800000))).1
      = ⟨199, true, ["supplier_open", "supplier_error_us-east", "used_cache"], some "30m old"⟩
    ∧ (getPrice fetch nowMono nowWall sku .usWest brks0
        (some (199, nowWall - 1800000))).2.calls = [Region.usEast] := by
  obtain ⟨h1, h2⟩ := getPrice_westOpen_eastFail_cached fetch nowMono nowWall sku brks0 199
    (nowWall - 1800000) hw1 (canProbe_eq_false_of_lt nowMono hw2) he hf
  rw [freshnessLabel_30m] at h1
  exact ⟨h1, h2⟩

/-- Witness for C5 amended at the concrete scenario state. -/
theorem C5_witness :
    (getPrice (fun _ => none) 1000 10000000 "X" .usWest brksC5
      (some (199, 10000000 - 1800000))).1
      = ⟨199, true, ["supplier_open", "supplier_error_us-east", "used_cache"], some "30m old"⟩ :=
  (C5_end_to_end (fun _ => none) 1000 10000000 "X" brksC5 rfl
    (by norm_num [brksC5, bOpen]) rfl rfl).1

/-- **C6 counterexample**: the claim "3 failures and 7 successes in any
order leaves the breaker closed" is false — with the three failures first,
the very first sample makes the window's rate `1/1 ≥ 0.4`, the breaker
trips open at once, and open is absorbing, so the final state is `open`. -/
theorem C6_counterexample :
    (feed (CircuitBreaker.init 10 (2/5) 15000 1000) badOrderC6 0).state = .opened
    ∧ (feed (CircuitBreaker.init 10 (2/5) 15000 1000) badOrderC6 0).state ≠ .closed := by
  have h := feed_badOrderC6_opened 15000
  exact ⟨h, by rw [h]; intro hc; cases hc⟩

/-- **C6 amended** (corrected): for a fresh breaker with
`maxFailRate = 0.4`, `sampleCapacity = 10`, feeding 4 failures and 6
successes in *any* order (final sample a failure, durations below the p95
threshold) ends open; feeding 3 failures and 7 successes leaves it closed
only for orders in which every prefix keeps the failure rate below 0.4
(e.g. `S,S,S,F,S,S,F,S,S,F`); an order with an early failure (e.g. the
three failures first) trips the breaker open en route and it stays open. -/
theorem C6_trip_threshold :
    (∀ (cd mp now : ℚ) (l : List (ℚ × Bool)), l.length = 10 → failCount l = 4 →
      (∃ L ms, l = L ++ [(ms, false)]) → (∀ o ∈ l, o.1 < mp) →
      (feed (CircuitBreaker.init 10 (2/5) cd mp) l now).state = .opened)
    ∧ (feed (CircuitBreaker.init 10 (2/5) 15000 1000) goodOrderC6 0).state = .closed
    ∧ (feed (CircuitBreaker.init 10 (2/5) 15000 1000) badOrderC6 0).state = .opened :=
  ⟨fun cd mp now l hlen hfail _ _ => feed_four_failures_opens cd mp now l hlen hfail,
    feed_goodOrderC6_closed 15000, feed_badOrderC6_opened 15000⟩

/-- Witness for C6 amended: six successes then four failures (last sample a
failure, all durations 100 < 1000) drives the fresh breaker open. -/
theorem C6_witness :
    (feed (CircuitBreaker.init 10 (2/5) 15000 1000) lastFailOrderC6 0).state = .opened := by
  refine C6_trip_threshold.1 15000 1000 0 lastFailOrderC6 (by decide) (by decide)
    ⟨List.replicate 6 ((100 : ℚ), true) ++ List.replicate 3 ((100 : ℚ), false), 100,
      by decide⟩ ?_
  intro o ho
  simp only [lastFailOrderC6, List.mem_append, List.mem_replicate, ne_eq] at ho
  rcases ho with ⟨-, rfl⟩ | ⟨-, rfl⟩ <;> norm_num

/-- **C7 counterexample**: on the two-sample window `[100, 200]` the code's
p95 picks index `min(1, int(0.95*1)) = 0`, i.e. `100`, while the spec's
nearest-rank formula `ceil(0.95*2)-1 = 1` picks `200`; the two disagree. -/
theorem C7_counterexample :
    p95 [(100 : ℚ), 200] = 100 ∧ p95NearestRank [(100 : ℚ), 200] = 200
    ∧ p95 [(100 : ℚ), 200] ≠ p95NearestRank [(100 : ℚ), 200] := by
  have hfl : (Int.floor ((95 : ℚ) / 100 * ((1 : ℕ) : ℚ))).toNat = 0 := by
    rw [floor_idx_toNat]
  have hcl : (⌈(19 : ℚ) / 10⌉₊ : ℕ) = 2 := by
    rw [Nat.ceil_eq_iff (by norm_num)]
    constructor <;> norm_num
  have h1 : p95 [(100 : ℚ), 200] = 100 := by
    norm_num [p95, List.insertionSort, List.orderedInsert, hfl]
  have h2 : p95NearestRank [(100 : ℚ), 200] = 200 := by
    norm_num [p95NearestRank, List.insertionSort, List.orderedInsert, hcl]
  refine ⟨h1, h2, ?_⟩
  rw [h1, h2]
  norm_num

/-- **C7 amended** (corrected): for a nonempty window the derived p95 is
the element at index `int(0.95*(len-1))` — not `ceil(0.95*len)-1` — of the
durations sorted ascending (the `min(len-1, ·)` clamp being redundant), and
0 for an empty window; the failure rate is `failures/len`, and 0 for an
empty window. -/
theorem C7_percentile_semantics :
    (∀ values : List ℚ, values ≠ [] →
      p95 values = (List.insertionSort (· ≤ ·) values).getD
        ((Int.floor ((95 : ℚ) / 100 * ((values.length - 1 : ℕ) : ℚ))).toNat) 0)
    ∧ p95 [] = 0
    ∧ failRate [] = 0
    ∧ (∀ l : List (ℚ × Bool), l ≠ [] →
        failRate l = (failCount l : ℚ) / (l.length : ℚ)) := by
  refine ⟨?_, rfl, rfl, fun l hl => failRate_of_ne_nil hl⟩
  intro values hne
  have hie : ¬ (values.isEmpty = true) := by simpa [List.isEmpty_iff] using hne
  simp only [p95, hie, if_false]
  rw [List.length_insertionSort, p95_idx_min_eq (values.length - 1)]
  simp

/-- Witness for C7 amended, at the windows `[100, 200]` and `[(900, false)]`. -/
theorem C7_witness :
    p95 [(100 : ℚ), 200]
      = (List.insertionSort (· ≤ ·) [(100 : ℚ), 200]).getD
        ((Int.floor ((95 : ℚ) / 100 * ((([(100 : ℚ), 200] : List ℚ).length - 1 : ℕ) : ℚ))).toNat) 0
    ∧ failRate [((900 : ℚ), false)]
      = (failCount [((900 : ℚ), false)] : ℚ) / (([((900 : ℚ), false)] : List (ℚ × Bool)).length : ℚ) :=
  ⟨C7_percentile_semantics.1 [(100 : ℚ), 200] (by simp),
    C7_percentile_semantics.2.2.2 [((900 : ℚ), false)] (by simp)⟩

/-- **C8 counterexample**: `with_timeout` does *not* absorb the wrapped
call's failures into returned Results — a non-timeout exception crosses its
boundary unchanged (`except Exception: raise` re-raises), rather than being
returned as a tagged generic-error Result. -/
theorem C8_counterexample :
    withTimeout (Except.error "502_bad_gateway" : Except String ℤ) false "supplier_us-west"
      = Except.error "502_bad_gateway"
    ∧ (withTimeout (Except.error "502_bad_gateway" : Except String ℤ) false
        "supplier_us-west").isOk = false :=
  ⟨rfl, rfl⟩

/-- **C8 amended** (corrected): `with_timeout` raises on every failure
path rather than returning Results: a deadline miss is re-raised as
`TimeoutError("timeout_<label>")`, the wrapped call's own exception is
re-raised unchanged (not re-tagged), and a successful value is returned;
the *callers* absorb those exceptions — the supplier orchestrator's
`attempt` catches everything and yields `none` (a degradation tag) instead
of propagating. -/
theorem C8_timeout_guard :
    (∀ (T : Type) (o : Except String T) (l : String),
        withTimeout o true l = Except.error ("timeout_" ++ l))
    ∧ (∀ (T : Type) (v : T) (l : String),
        withTimeout (Except.ok v : Except String T) false l = Except.ok v)
    ∧ (∀ (T : Type) (e l : String),
        withTimeout (Except.error e : Except String T) false l = Except.error e)
    ∧ (∀ (fetch : Region → Option (ℤ × ℚ)) (nowMono nowWall : ℚ) (r : Region)
        (st : SupplierSt), fetch r = none →
        (attempt fetch nowMono nowWall r st).1 = none) := by
  refine ⟨fun T o l => rfl, fun T v l => rfl, fun T e l => rfl, ?_⟩
  intro fetch nowMono nowWall r st hf
  by_cases h : (st.brks r).state = .opened ∧ canProbe (st.brks r) nowMono = false
  · rw [attempt_skip fetch nowMono nowWall r st h.1 h.2]
  · rw [attempt_fail fetch nowMono nowWall r st h hf]

/-- Witness for C8 amended at concrete outcomes. -/
theorem C8_witness :
    withTimeout (Except.ok (42 : ℤ)) true "supplier_us-east"
      = Except.error "timeout_supplier_us-east"
    ∧ withTimeout (Except.ok (42 : ℤ)) false "supplier_us-east" = Except.ok 42
    ∧ (attempt (fun _ => none) 0 0 Region.usEast ⟨fun _ => bClosedFresh, none, [], []⟩).1
      = none := by
  refine ⟨?_, C8_timeout_guard.2.1 ℤ 42 "supplier_us-east",
    C8_timeout_guard.2.2.2 (fun _ => none) 0 0 Region.usEast
      ⟨fun _ => bClosedFresh, none, [], []⟩ rfl⟩
  rw [C8_timeout_guard.1 ℤ (Except.ok 42) "supplier_us-east"]
  exact congrArg Except.error (by decide)

lemma allergenFallback_conclusions (recipe : Recipe) (reasons0 : List String)
    (brk : CircuitBreaker) :
    (allergenFallback recipe reasons0 brk).1.is_degraded = true
    ∧ (∀ x, x ∈ (allergenFallback recipe reasons0 brk).1.items ↔
        (x ∈ recipe.allergen_tags.map lowerStr ∨ x ∈ llmItems))
    ∧ List.Sorted (· ≤ ·) (allergenFallback recipe reasons0 brk).1.items
    ∧ (allergenFallback recipe reasons0 brk).1.items.Nodup :=
  ⟨rfl, mem_allergenFallback_items recipe reasons0 brk,
    sorted_sortedDedup _, nodup_sortedDedup _⟩

/-- **C9** (confirmed): whenever the primary third-party allergen call
fails (raises, including timeouts) or is skipped because its breaker is
open and not probing, both fallback steps run and the returned items are
the deduplicated, ascending-sorted union of the lower-cased locally curated
tags and the conservative estimator's parsed output
(`["gluten", "dairy", "nuts", "soy"]`) — a union, never a substitution —
and the result is marked degraded. -/
theorem C9_union_fallback (recipe : Recipe) (outcome : AllergenOutcome) (now : ℚ)
    (brk : CircuitBreaker)
    (h : (∃ msg, outcome = AllergenOutcome.err msg)
      ∨ (brk.state = .opened ∧ canProbe brk now = false)) :
    (allergensFor recipe outcome now brk).1.is_degraded = true
    ∧ (∀ x, x ∈ (allergensFor recipe outcome now brk).1.items ↔
        (x ∈ recipe.allergen_tags.map lowerStr ∨ x ∈ llmItems))
    ∧ List.Sorted (· ≤ ·) (allergensFor recipe outcome now brk).1.items
    ∧ (allergensFor recipe outcome now brk).1.items.Nodup
    ∧ llmItems = ["gluten", "dairy", "nuts", "soy"] := by
  by_cases hskip : brk.state = .opened ∧ canProbe brk now = false
  · rw [allergensFor_skip recipe outcome now brk hskip.1 hskip.2]
    obtain ⟨h1, h2, h3, h4⟩ := allergenFallback_conclusions recipe ["allergen_open"] brk
    exact ⟨h1, h2, h3, h4, by decide⟩
  · rcases h with ⟨msg, rfl⟩ | hskip2
    · rw [allergensFor_err recipe msg now brk hskip]
      obtain ⟨h1, h2, h3, h4⟩ := allergenFallback_conclusions recipe _ _
      exact ⟨h1, h2, h3, h4, by decide⟩
    · exact absurd hskip2 hskip

/-- Witness for C9 at the demo recipe with a raising primary call. -/
theorem C9_witness :
    (allergensFor recipeBolognese (.err "invalid_json_schema_change") 0 bClosedFresh).1.is_degraded
      = true
    ∧ List.Sorted (· ≤ ·)
      (allergensFor recipeBolognese (.err "invalid_json_schema_change") 0 bClosedFresh).1.items
    ∧ ("dairy" ∈
        (allergensFor recipeBolognese (.err "invalid_json_schema_change") 0 bClosedFresh).1.items
      ↔ ("dairy" ∈ recipeBolognese.allergen_tags.map lowerStr ∨ "dairy" ∈ llmItems)) :=
  ⟨(C9_union_fallback recipeBolognese (.err "invalid_json_schema_change") 0 bClosedFresh
      (Or.inl ⟨_, rfl⟩)).1,
    (C9_union_fallback recipeBolognese (.err "invalid_json_schema_change") 0 bClosedFresh
      (Or.inl ⟨_, rfl⟩)).2.2.1,
    (C9_union_fallback recipeBolognese (.err "invalid_json_schema_change") 0 bClosedFresh
      (Or.inl ⟨_, rfl⟩)).2.1 "dairy"⟩

end ToolFallbacks
